import Mathlib

/-!
Verification development for the `mnasnet-pytorch` repository
(`src/mnasnet.py`).

The file shallowly embeds the architecture-construction code of the
repository: every module constructor (`ConvBNReLU`, `SqueezeExcitation`,
`MBConvBlock`, `MnasNetA1`) becomes a Lean definition producing a
description of the layer graph it assembles, with Python `assert`
statements modelled as `Except` errors.  Numeric behaviour of the tensor
framework itself (convolution arithmetic, batchnorm, autograd) is out of
scope, as the repository only contributes topology and hyperparameters;
what we embed of the framework is its *shape* semantics (how each layer
transforms a tensor shape, and when it raises a shape error) and its
parameter counts, which is exactly what the specification's testable
properties talk about.

Conventions:
* Python `int` values are `ℤ`; Python floats that only ever hold exact
  ratio values (width multiplier, expansion/reduction ratios) are `ℚ`.
* Python `int(x)` conversion is `pyInt` (truncation toward zero);
  Python `//` floor division on integers is `Int.fdiv`.
* A fatal `assert` failure at construction time is `InitError.assertionError`;
  a Python division by zero is `InitError.zeroDivisionError`.
-/

/-- Python's `int(x)` conversion applied to an exact rational: truncation
toward zero (floor for nonnegative values, ceiling for negative ones). -/
def pyInt (q : ℚ) : ℤ :=
  if 0 ≤ q then ⌊q⌋ else ⌈q⌉

/-- Errors a module constructor can raise: a failed `assert`, or a
`ZeroDivisionError` from dividing by a zero reduction ratio. -/
inductive InitError where
  | assertionError
  | zeroDivisionError
deriving DecidableEq, Repr

/-- A primitive framework layer (a `torch.nn` module that the repository
uses as a black box), recorded with its construction hyperparameters. -/
inductive PrimLayer where
  | conv2d (inC outC kernel stride padding groups : ℤ) (bias : Bool)
  | batchNorm2d (c : ℤ)
  | relu
  | sigmoid
  | adaptiveAvgPool2d (outSize : ℤ)
  | avgPool2d (kernel : ℤ)
  | dropout (p : ℚ)
  | linear (inF outF : ℤ)
deriving DecidableEq, Repr

/-- Number of learnable parameters (sum of `p.numel()` over the layer's
parameter tensors): a convolution has a `outC × inC/groups × k × k` weight
plus an optional `outC` bias, a batchnorm has weight and bias of size `c`,
a linear layer has an `outF × inF` weight and an `outF` bias. -/
def PrimLayer.numel : PrimLayer → ℕ
  | .conv2d inC outC kernel _ _ groups bias =>
      outC.toNat * (inC.toNat / groups.toNat) * (kernel.toNat * kernel.toNat) +
        (if bias then outC.toNat else 0)
  | .batchNorm2d c => 2 * c.toNat
  | .linear inF outF => outF.toNat * inF.toNat + outF.toNat
  | _ => 0

/-- Shape of a 4-dimensional tensor `(batch, channels, height, width)`. -/
structure Shape4 where
  n : ℤ
  c : ℤ
  h : ℤ
  w : ℤ
deriving DecidableEq, Repr

/-- Shape of a 2-dimensional tensor `(batch, features)`. -/
structure Shape2 where
  n : ℤ
  f : ℤ
deriving DecidableEq, Repr

/-- Output spatial size of a convolution / pooling window:
`floor ((size + 2 * padding - kernel) / stride) + 1`. -/
def convOut (size kernel stride padding : ℤ) : ℤ :=
  (size + 2 * padding - kernel).fdiv stride + 1

/-- Shape semantics of a primitive layer on a 4-dimensional input: `none`
models a runtime shape error raised by the framework (channel mismatch,
window larger than the padded input, empty non-batch dimensions for
adaptive pooling).  `nn.Linear` acts on the last dimension. -/
def PrimLayer.shape4 : PrimLayer → Shape4 → Option Shape4
  | .conv2d inC outC kernel stride padding _ _, x =>
      if x.c = inC ∧ 1 ≤ stride ∧ kernel ≤ x.h + 2 * padding ∧
          kernel ≤ x.w + 2 * padding then
        some ⟨x.n, outC, convOut x.h kernel stride padding,
          convOut x.w kernel stride padding⟩
      else none
  | .batchNorm2d c, x => if x.c = c then some x else none
  | .relu, x => some x
  | .sigmoid, x => some x
  | .adaptiveAvgPool2d outSize, x =>
      if 1 ≤ x.c ∧ 1 ≤ x.h ∧ 1 ≤ x.w ∧ 1 ≤ outSize then
        some ⟨x.n, x.c, outSize, outSize⟩
      else none
  | .avgPool2d kernel, x =>
      if 1 ≤ kernel ∧ kernel ≤ x.h ∧ kernel ≤ x.w then
        some ⟨x.n, x.c, convOut x.h kernel kernel 0, convOut x.w kernel kernel 0⟩
      else none
  | .dropout _, x => some x
  | .linear inF outF, x =>
      if x.w = inF then some ⟨x.n, x.c, x.h, outF⟩ else none

/-- Shape semantics of a primitive layer on a 2-dimensional input. -/
def PrimLayer.shape2 : PrimLayer → Shape2 → Option Shape2
  | .dropout _, x => some x
  | .relu, x => some x
  | .sigmoid, x => some x
  | .linear inF outF, x => if x.f = inF then some ⟨x.n, outF⟩ else none
  | _, _ => none

/-- Run a sequential container of primitive layers on a 4-dimensional shape. -/
def runPrims (layers : List PrimLayer) (x : Shape4) : Option Shape4 :=
  layers.foldlM (fun s l => l.shape4 s) x

/-- Elementwise broadcasting of a single dimension, as the tensor framework
does for `+` and `*`: sizes must agree or one of them must be `1`. -/
def broadcastDim (a b : ℤ) : Option ℤ :=
  if a = b then some a
  else if a = 1 then some b
  else if b = 1 then some a
  else none

/-- Broadcasting two 4-dimensional shapes (used by the elementwise `+` of
the residual shortcut and the elementwise `*` of squeeze-excitation). -/
def broadcastShapes (x y : Shape4) : Option Shape4 := do
  let n ← broadcastDim x.n y.n
  let c ← broadcastDim x.c y.c
  let h ← broadcastDim x.h y.h
  let w ← broadcastDim x.w y.w
  pure ⟨n, c, h, w⟩

/-- The `ConvBNReLU` module: records its constructor arguments and the
three framework layers its `nn.Sequential` is assembled from. -/
structure ConvBNReLU where
  inPlanes : ℤ
  outPlanes : ℤ
  kernelSize : ℤ
  stride : ℤ
  groups : ℤ
  seq : List PrimLayer
deriving DecidableEq, Repr

/-- `ConvBNReLU.__init__`: derives `padding = (kernel_size - 1) // 2` and
assembles convolution (without bias), batchnorm, and ReLU.  The constructor
performs no validation of its own. -/
def ConvBNReLU.init (inPlanes outPlanes kernelSize stride groups : ℤ) : ConvBNReLU :=
  { inPlanes := inPlanes
    outPlanes := outPlanes
    kernelSize := kernelSize
    stride := stride
    groups := groups
    seq := [
      .conv2d inPlanes outPlanes kernelSize stride ((kernelSize - 1).fdiv 2) groups false,
      .batchNorm2d outPlanes,
      .relu] }

/-- Parameter count of a `ConvBNReLU` block. -/
def ConvBNReLU.numel (c : ConvBNReLU) : ℕ :=
  (c.seq.map PrimLayer.numel).sum

/-- The `SqueezeExcitation` module: records its constructor arguments and
the five framework layers of its `self.se` sequential. -/
structure SqueezeExcitation where
  numFeatures : ℤ
  reducedDim : ℤ
  seq : List PrimLayer
deriving DecidableEq, Repr

/-- `SqueezeExcitation.__init__`: global average pool to `1×1`, `1×1`
convolution down to `reduced_dim` with bias, ReLU, `1×1` convolution back
up to `num_features` with bias, sigmoid. -/
def SqueezeExcitation.init (numFeatures reducedDim : ℤ) : SqueezeExcitation :=
  { numFeatures := numFeatures
    reducedDim := reducedDim
    seq := [
      .adaptiveAvgPool2d 1,
      .conv2d numFeatures reducedDim 1 1 0 1 true,
      .relu,
      .conv2d reducedDim numFeatures 1 1 0 1 true,
      .sigmoid] }

/-- Parameter count of a `SqueezeExcitation` module. -/
def SqueezeExcitation.numel (s : SqueezeExcitation) : ℕ :=
  (s.seq.map PrimLayer.numel).sum

/-- Shape semantics of `SqueezeExcitation.forward`: `return x * self.se(x)`,
the gate's output being broadcast-multiplied onto the input. -/
def SqueezeExcitation.forwardShape (m : SqueezeExcitation) (x : Shape4) : Option Shape4 := do
  let g ← runPrims m.seq x
  broadcastShapes x g

/-- One entry of an `MBConvBlock`'s `layers` list: a `ConvBNReLU` child
module, a `SqueezeExcitation` child module, or a bare framework layer
(the final pointwise-linear convolution and its batchnorm). -/
inductive BlockLayer where
  | cbr (c : ConvBNReLU)
  | seGate (s : SqueezeExcitation)
  | prim (p : PrimLayer)
deriving DecidableEq, Repr

/-- Shape semantics of one entry of an `MBConvBlock`'s layer list. -/
def BlockLayer.shape4 : BlockLayer → Shape4 → Option Shape4
  | .cbr c, x => runPrims c.seq x
  | .seGate s, x => s.forwardShape x
  | .prim p, x => p.shape4 x

/-- Parameter count of one entry of an `MBConvBlock`'s layer list. -/
def BlockLayer.numel : BlockLayer → ℕ
  | .cbr c => c.numel
  | .seGate s => s.numel
  | .prim p => p.numel

/-- The `MBConvBlock` module: its constructor arguments, the
`use_residual` flag computed at line 35 of the source, the hidden
dimension, and the layer list its `self.conv` sequential is built from. -/
structure MBConvBlock where
  inPlanes : ℤ
  outPlanes : ℤ
  stride : ℤ
  expandRatio : ℚ
  kernelSize : ℤ
  reductionRatio : ℚ
  noSkip : Bool
  useResidual : Bool
  hiddenDim : ℤ
  conv : List BlockLayer
deriving DecidableEq, Repr

/-- `MBConvBlock.__init__`: computes `use_residual`, asserts
`stride in [1, 2]` and `kernel_size in [3, 5]` (in that order, before any
layer is assembled), computes `hidden_dim = int(in_planes * expand_ratio)`,
conditionally prepends the pointwise expansion `ConvBNReLU`, appends the
depthwise `ConvBNReLU`, conditionally appends a `SqueezeExcitation` with
`reduced_dim = max(1, int(in_planes / reduction_ratio))` (raising
`ZeroDivisionError` when `reduction_ratio` is zero), and ends with the
pointwise linear projection convolution and its batchnorm. -/
def MBConvBlock.init (inPlanes outPlanes stride : ℤ) (expandRatio : ℚ)
    (kernelSize : ℤ) (reductionRatio : ℚ) (noSkip : Bool) :
    Except InitError MBConvBlock :=
  let useResidual := decide (inPlanes = outPlanes) && decide (stride = 1) && !noSkip
  if ¬(stride = 1 ∨ stride = 2) then .error .assertionError
  else if ¬(kernelSize = 3 ∨ kernelSize = 5) then .error .assertionError
  else
    let hiddenDim := pyInt ((inPlanes : ℚ) * expandRatio)
    let pw : List BlockLayer :=
      if inPlanes ≠ hiddenDim then [.cbr (ConvBNReLU.init inPlanes hiddenDim 1 1 1)] else []
    let dw : List BlockLayer :=
      [.cbr (ConvBNReLU.init hiddenDim hiddenDim kernelSize stride hiddenDim)]
    let tail : List BlockLayer :=
      [.prim (.conv2d hiddenDim outPlanes 1 1 0 1 false), .prim (.batchNorm2d outPlanes)]
    if reductionRatio ≠ 1 then
      if reductionRatio = 0 then .error .zeroDivisionError
      else
        let reducedDim := max 1 (pyInt ((inPlanes : ℚ) / reductionRatio))
        .ok { inPlanes := inPlanes, outPlanes := outPlanes, stride := stride,
              expandRatio := expandRatio, kernelSize := kernelSize,
              reductionRatio := reductionRatio, noSkip := noSkip,
              useResidual := useResidual, hiddenDim := hiddenDim,
              conv := pw ++ dw ++ [.seGate (SqueezeExcitation.init hiddenDim reducedDim)] ++ tail }
    else
      .ok { inPlanes := inPlanes, outPlanes := outPlanes, stride := stride,
            expandRatio := expandRatio, kernelSize := kernelSize,
            reductionRatio := reductionRatio, noSkip := noSkip,
            useResidual := useResidual, hiddenDim := hiddenDim,
            conv := pw ++ dw ++ tail }

/-- `MBConvBlock.forward`, abstracted over the value domain: if
`use_residual` holds it returns `x + self.conv(x)`, otherwise
`self.conv(x)` alone.  `conv` is the denotation of the block's
sequential in any additive value domain. -/
def MBConvBlock.forward {α : Type} [Add α] (b : MBConvBlock) (conv : α → α) (x : α) : α :=
  if b.useResidual then x + conv x else conv x

/-- Shape semantics of `MBConvBlock.forward`: run the layer list, then
broadcast-add the input when the residual shortcut is active. -/
def MBConvBlock.forwardShape (b : MBConvBlock) (x : Shape4) : Option Shape4 :=
  if b.useResidual then do
    let y ← b.conv.foldlM (fun s l => l.shape4 s) x
    broadcastShapes x y
  else
    b.conv.foldlM (fun s l => l.shape4 s) x

/-- Parameter count of an `MBConvBlock`. -/
def MBConvBlock.numel (b : MBConvBlock) : ℕ :=
  (b.conv.map BlockLayer.numel).sum

/-- Constructor arguments of one `MBConvBlock` created by the stage loops
of `MnasNetA1.__init__`, together with the stage index `i` and repetition
index `j` that produced it. -/
structure BlockArgs where
  stage : ℕ
  rep : ℕ
  inPlanes : ℤ
  outPlanes : ℤ
  stride : ℤ
  expandRatio : ℚ
  kernelSize : ℤ
  reductionRatio : ℚ
  noSkip : Bool
deriving DecidableEq, Repr

/-- One row `[t, c, n, s, k, r]` of the `settings` table:
expansion ratio, output channels, repeat count, stride, kernel size,
reduction ratio. -/
abbrev Setting := ℚ × ℤ × ℕ × ℤ × ℤ × ℚ

/-- The `settings` hyperparameter table of `MnasNetA1.__init__`. -/
def settings : List Setting :=
  [(1, 16, 1, 1, 3, 1),
   (6, 24, 2, 2, 3, 1),
   (3, 40, 3, 2, 5, 4),
   (6, 80, 4, 2, 3, 1),
   (6, 112, 2, 1, 3, 4),
   (6, 160, 3, 2, 5, 4),
   (6, 320, 1, 1, 3, 1)]

/-- The inner `for j in range(n)` loop of `MnasNetA1.__init__`: emits one
`BlockArgs` per repetition (stride `s` for the first repetition, `1`
afterwards), threading `in_channels := out_channels` forward; returns the
emitted argument records and the final `in_channels`. -/
def repLoop (i : ℕ) (expandRatio : ℚ) (outC s kernel : ℤ) (r : ℚ) (noSkip : Bool) :
    ℕ → ℕ → ℤ → List BlockArgs × ℤ
  | _, 0, inC => ([], inC)
  | j, Nat.succ rest, inC =>
      let stride := if j = 0 then s else (1 : ℤ)
      let a : BlockArgs :=
        ⟨i, j, inC, outC, stride, expandRatio, kernel, r, noSkip⟩
      let res := repLoop i expandRatio outC s kernel r noSkip (j + 1) rest outC
      (a :: res.1, res.2)

/-- The outer `for i, (t, c, n, s, k, r) in enumerate(settings)` loop of
`MnasNetA1.__init__`: scales the stage's output channels by the width
multiplier with `int(c * width_mult)`, sets `no_skip` exactly for stage
`0`, and threads `in_channels` across stages. -/
def stagesLoop (w : ℚ) : List Setting → ℕ → ℤ → List BlockArgs × ℤ
  | [], _, inC => ([], inC)
  | (t, c, n, s, k, r) :: rest, i, inC =>
      let outC := pyInt ((c : ℚ) * w)
      let noSkip := decide (i = 0)
      let stage := repLoop i t outC s k r noSkip 0 n inC
      let res := stagesLoop w rest (i + 1) stage.2
      (stage.1 ++ res.1, res.2)

/-- Argument records of all `MBConvBlock`s that `MnasNetA1.__init__`
creates for a given width multiplier, starting from the stem's
`int(32 * width_mult)` input channels. -/
def blockArgsList (w : ℚ) : List BlockArgs :=
  (stagesLoop w settings 0 (pyInt (32 * w))).1

/-- The running `in_channels` value after all seven stages, used as the
input channel count of the head convolution. -/
def lastChannels (w : ℚ) : ℤ :=
  (stagesLoop w settings 0 (pyInt (32 * w))).2

/-- One entry of the `features` list of `MnasNetA1`: the stem and head are
`ConvBNReLU` modules, everything in between is an `MBConvBlock`. -/
inductive Feature where
  | cbr (c : ConvBNReLU)
  | mb (b : MBConvBlock)
deriving DecidableEq, Repr

/-- Declared input channel count of a feature. -/
def Feature.inCh : Feature → ℤ
  | .cbr c => c.inPlanes
  | .mb b => b.inPlanes

/-- Declared output channel count of a feature. -/
def Feature.outCh : Feature → ℤ
  | .cbr c => c.outPlanes
  | .mb b => b.outPlanes

/-- Shape semantics of one feature. -/
def Feature.shape4 : Feature → Shape4 → Option Shape4
  | .cbr c, x => runPrims c.seq x
  | .mb b, x => b.forwardShape x

/-- Parameter count of one feature. -/
def Feature.numel : Feature → ℕ
  | .cbr c => c.numel
  | .mb b => b.numel

/-- The `MnasNetA1` module: the assembled `features` list, the `7×7`
average pooling window, and the classifier (`Dropout(0.2)` followed by
`Linear(1280, num_classes)`). -/
structure MnasNetA1 where
  widthMult : ℚ
  numClasses : ℤ
  features : List Feature
  avgPoolKernel : ℤ
  classifier : List PrimLayer
deriving DecidableEq, Repr

/-- `MnasNetA1.__init__`: a stride-2 stem `ConvBNReLU(3, int(32*w), 3)`,
the seven stages of `MBConvBlock`s driven by `settings`, and a head
`ConvBNReLU(in_channels, 1280, kernel_size=1)`.  Propagates any
constructor failure of a block. -/
def MnasNetA1.init (w : ℚ) (numClasses : ℤ) : Except InitError MnasNetA1 := do
  let blocks ← (blockArgsList w).mapM fun a =>
    Except.map Feature.mb
      (MBConvBlock.init a.inPlanes a.outPlanes a.stride a.expandRatio
        a.kernelSize a.reductionRatio a.noSkip)
  .ok { widthMult := w
        numClasses := numClasses
        features :=
          .cbr (ConvBNReLU.init 3 (pyInt (32 * w)) 3 2 1) ::
            blocks ++ [.cbr (ConvBNReLU.init (lastChannels w) 1280 1 1 1)]
        avgPoolKernel := 7
        classifier := [.dropout 0.2, .linear 1280 numClasses] }

/-- Shape semantics of `MnasNetA1.forward`: features, average pooling,
`view(x.size(0), -1)` flattening, classifier. -/
def MnasNetA1.forwardShape (m : MnasNetA1) (x : Shape4) : Option Shape2 := do
  let y ← m.features.foldlM (fun s f => f.shape4 s) x
  let y ← PrimLayer.shape4 (.avgPool2d m.avgPoolKernel) y
  let fl : Shape2 := ⟨y.n, y.c * y.h * y.w⟩
  m.classifier.foldlM (fun s l => l.shape2 s) fl

/-- The `numel` utility of the source: total learnable parameter count of
the model (all features plus the classifier). -/
def MnasNetA1.numel (m : MnasNetA1) : ℕ :=
  (m.features.map Feature.numel).sum + (m.classifier.map PrimLayer.numel).sum

/-- The `MBConvBlock` value that `MBConvBlock.init` produces when its
assertions pass and the reduction ratio is nonzero, as a total function of
the argument record (mirroring the two constructor branches, used to state
construction lemmas). -/
def blockOfArgs (a : BlockArgs) : MBConvBlock :=
  let useResidual := decide (a.inPlanes = a.outPlanes) && decide (a.stride = 1) && !a.noSkip
  let hiddenDim := pyInt ((a.inPlanes : ℚ) * a.expandRatio)
  let pw : List BlockLayer :=
    if a.inPlanes ≠ hiddenDim then [.cbr (ConvBNReLU.init a.inPlanes hiddenDim 1 1 1)] else []
  let dw : List BlockLayer :=
    [.cbr (ConvBNReLU.init hiddenDim hiddenDim a.kernelSize a.stride hiddenDim)]
  let tail : List BlockLayer :=
    [.prim (.conv2d hiddenDim a.outPlanes 1 1 0 1 false), .prim (.batchNorm2d a.outPlanes)]
  if a.reductionRatio ≠ 1 then
    let reducedDim := max 1 (pyInt ((a.inPlanes : ℚ) / a.reductionRatio))
    { inPlanes := a.inPlanes, outPlanes := a.outPlanes, stride := a.stride,
      expandRatio := a.expandRatio, kernelSize := a.kernelSize,
      reductionRatio := a.reductionRatio, noSkip := a.noSkip,
      useResidual := useResidual, hiddenDim := hiddenDim,
      conv := pw ++ dw ++ [.seGate (SqueezeExcitation.init hiddenDim reducedDim)] ++ tail }
  else
    { inPlanes := a.inPlanes, outPlanes := a.outPlanes, stride := a.stride,
      expandRatio := a.expandRatio, kernelSize := a.kernelSize,
      reductionRatio := a.reductionRatio, noSkip := a.noSkip,
      useResidual := useResidual, hiddenDim := hiddenDim,
      conv := pw ++ dw ++ tail }

/-- The `MnasNetA1` value that `MnasNetA1.init` produces (its construction
always succeeds, since every stride and kernel size in `settings` is
legal), as a total function of the width multiplier and class count. -/
def mnasNetModel (w : ℚ) (numClasses : ℤ) : MnasNetA1 :=
  { widthMult := w
    numClasses := numClasses
    features :=
      .cbr (ConvBNReLU.init 3 (pyInt (32 * w)) 3 2 1) ::
        (blockArgsList w).map (fun a => .mb (blockOfArgs a)) ++
          [.cbr (ConvBNReLU.init (lastChannels w) 1280 1 1 1)]
    avgPoolKernel := 7
    classifier := [.dropout 0.2, .linear 1280 numClasses] }

/-! ### Basic lemmas about the embedding -/

/-- Truncation agrees with the identity on integers. -/
theorem pyInt_intCast (z : ℤ) : pyInt ((z : ℤ) : ℚ) = z := by
  unfold pyInt
  split_ifs <;> simp

/-- Truncation toward zero is monotone. -/
theorem pyInt_mono {q q' : ℚ} (h : q ≤ q') : pyInt q ≤ pyInt q' := by
  unfold pyInt
  split_ifs with h1 h2 h2
  · exact Int.floor_le_floor h
  · exact absurd (le_trans h1 h) h2
  · calc ⌈q⌉ ≤ ⌈(0 : ℚ)⌉ := Int.ceil_le_ceil (le_of_not_le h1)
      _ ≤ ⌊q'⌋ := by simpa using Int.floor_nonneg.mpr h2
  · exact Int.ceil_le_ceil h

/-- Truncation of a nonnegative rational is nonnegative. -/
theorem pyInt_nonneg {q : ℚ} (h : 0 ≤ q) : 0 ≤ pyInt q := by
  have := pyInt_mono h
  simpa [pyInt] using this

/-- `int(p * m)` is exact when both factors are integers. -/
theorem pyInt_mul_natCast (p : ℤ) (m : ℕ) : pyInt ((p : ℚ) * (m : ℚ)) = p * m := by
  have : ((p : ℚ) * (m : ℚ)) = ((p * (m : ℤ) : ℤ) : ℚ) := by push_cast; ring
  rw [this, pyInt_intCast]

/-- A block constructed with the `no_skip` flag set never has an active
residual shortcut, whatever its other arguments are. -/
theorem init_noSkip_no_residual (inPlanes outPlanes stride : ℤ) (t : ℚ) (k : ℤ)
    (r : ℚ) (b : MBConvBlock)
    (h : MBConvBlock.init inPlanes outPlanes stride t k r true = .ok b) :
    b.useResidual = false := by
  unfold MBConvBlock.init at h
  split_ifs at h <;> simp_all <;> simp [← h]

/-! ### Claim theorems -/

/-- C3: the `MBConvBlock` constructor raises a fatal assertion failure if
and only if the stride is not in `{1, 2}` or the kernel size is not in
`{3, 5}`; the check happens in `init` before any layer is assembled, and
the only other construction-time failure (`ZeroDivisionError` for a zero
reduction ratio) is a distinct error kind. -/
theorem mbconv_assertion_iff (inPlanes outPlanes stride : ℤ) (t : ℚ) (k : ℤ)
    (r : ℚ) (noSkip : Bool) :
    MBConvBlock.init inPlanes outPlanes stride t k r noSkip = .error .assertionError ↔
      ¬(stride = 1 ∨ stride = 2) ∨ ¬(k = 3 ∨ k = 5) := by
  unfold MBConvBlock.init
  split_ifs <;> simp_all

/-- C2: `MBConvBlock.forward` returns the input added to the transform's
output exactly when input channels equal output channels, the stride is
`1`, and the no-skip flag is unset; otherwise it returns the transform's
output alone. -/
theorem mbconv_forward_residual (inPlanes outPlanes stride : ℤ) (t : ℚ) (k : ℤ)
    (r : ℚ) (noSkip : Bool) (b : MBConvBlock)
    (h : MBConvBlock.init inPlanes outPlanes stride t k r noSkip = .ok b)
    {α : Type} [Add α] (conv : α → α) (x : α) :
    b.forward conv x =
      if inPlanes = outPlanes ∧ stride = 1 ∧ noSkip = false then x + conv x
      else conv x := by
  have hres : b.useResidual =
      (decide (inPlanes = outPlanes) && decide (stride = 1) && !noSkip) := by
    unfold MBConvBlock.init at h
    split_ifs at h <;> simp_all <;> simp [← h]
  unfold MBConvBlock.forward
  rw [hres]
  by_cases h1 : inPlanes = outPlanes <;> by_cases h2 : stride = 1 <;>
    cases noSkip <;> simp [h1, h2]

/-- Witness for C2: a concrete residual-eligible block adds its input. -/
theorem mbconv_forward_residual_witness :
    ∃ b, MBConvBlock.init 16 16 1 6 3 1 false = .ok b ∧
      MBConvBlock.forward b (fun z => z * 2) (5 : ℤ) = 5 + 5 * 2 := by
  refine ⟨_, rfl, ?_⟩
  rw [mbconv_forward_residual 16 16 1 6 3 1 false _ rfl]
  norm_num

/-- C10: `ConvBNReLU.__init__` performs no validation — for every kernel
size, stride, and group count it succeeds and silently derives
`padding = (kernel_size - 1) // 2` — while the `MBConvBlock` constructor
is the one that rejects illegal strides and kernel sizes. -/
theorem convbnrelu_no_validation (inPlanes outPlanes kernelSize stride groups : ℤ) :
    (ConvBNReLU.init inPlanes outPlanes kernelSize stride groups).seq =
      [.conv2d inPlanes outPlanes kernelSize stride ((kernelSize - 1).fdiv 2) groups false,
       .batchNorm2d outPlanes,
       .relu] ∧
    (∀ (inP outP s : ℤ) (t : ℚ) (k : ℤ) (r : ℚ) (ns : Bool),
      ¬(s = 1 ∨ s = 2) ∨ ¬(k = 3 ∨ k = 5) →
      MBConvBlock.init inP outP s t k r ns = .error .assertionError) := by
  refine ⟨rfl, ?_⟩
  intro inP outP s t k r ns h
  unfold MBConvBlock.init
  split_ifs <;> simp_all

/-- Witness for C10: a kernel size of 7 and stride of 4 pass `ConvBNReLU`
construction untouched, while `MBConvBlock` rejects kernel size 7. -/
theorem convbnrelu_no_validation_witness :
    (ConvBNReLU.init 16 32 7 4 2).seq =
      [.conv2d 16 32 7 4 3 2 false, .batchNorm2d 32, .relu] ∧
    MBConvBlock.init 16 32 1 6 7 1 false = .error .assertionError := by
  constructor
  · have h := (convbnrelu_no_validation 16 32 7 4 2).1
    simpa using h
  · exact (convbnrelu_no_validation 16 32 7 4 2).2 16 32 1 6 7 1 false
      (Or.inr (by decide))

/-- C6: in the `MBConvBlock` constructor the hidden dimension is
`int(in_planes * expand_ratio)` (truncating), and a pointwise expansion
`ConvBNReLU` is prepended to the layer list exactly when this hidden
dimension differs from the input channel count. -/
theorem mbconv_hidden_expansion (inPlanes outPlanes stride : ℤ) (t : ℚ) (k : ℤ)
    (r : ℚ) (noSkip : Bool) (b : MBConvBlock)
    (h : MBConvBlock.init inPlanes outPlanes stride t k r noSkip = .ok b) :
    b.hiddenDim = pyInt ((inPlanes : ℚ) * t) ∧
    (b.conv.head? = some (.cbr (ConvBNReLU.init inPlanes b.hiddenDim 1 1 1)) ↔
      b.hiddenDim ≠ inPlanes) := by
  unfold MBConvBlock.init at h
  split_ifs at h with h1 h2 h3 h4
  all_goals
    simp only [Except.ok.injEq] at h
    subst h
    have hk1 : k ≠ 1 := by rcases h2 with rfl | rfl <;> decide
    refine ⟨rfl, ?_⟩
    by_cases hne : inPlanes ≠ pyInt ((inPlanes : ℚ) * t)
  all_goals simp only [if_pos hne, if_neg hne]
  · exact iff_of_true rfl (Ne.symm hne)
  · refine iff_of_false ?_ fun hcon => hcon (not_not.mp hne).symm
    intro heq
    simp [ConvBNReLU.init, hk1] at heq
  · exact iff_of_true rfl (Ne.symm hne)
  · refine iff_of_false ?_ fun hcon => hcon (not_not.mp hne).symm
    intro heq
    simp [ConvBNReLU.init, hk1] at heq

/-- Witness for C6: with `in_planes = 16` and `expand_ratio = 6` the hidden
dimension is `96` and an expansion block is prepended. -/
theorem mbconv_hidden_expansion_witness :
    ∃ b, MBConvBlock.init 16 24 2 6 5 1 false = .ok b ∧
      (b.hiddenDim = pyInt ((16 : ℚ) * 6) ∧
       (b.conv.head? = some (.cbr (ConvBNReLU.init 16 b.hiddenDim 1 1 1)) ↔
         b.hiddenDim ≠ 16)) :=
  ⟨_, rfl, mbconv_hidden_expansion 16 24 2 6 5 1 false _ rfl⟩

/-- C7: the `MBConvBlock` constructor appends a squeeze-excitation gate
exactly when the reduction ratio differs from `1`, and any such gate has
`num_features` equal to the hidden dimension and
`reduced_dim = max(1, int(in_planes / reduction_ratio))`. -/
theorem mbconv_se_gate (inPlanes outPlanes stride : ℤ) (t : ℚ) (k : ℤ)
    (r : ℚ) (noSkip : Bool) (b : MBConvBlock)
    (h : MBConvBlock.init inPlanes outPlanes stride t k r noSkip = .ok b) :
    ((∃ s, BlockLayer.seGate s ∈ b.conv) ↔ r ≠ 1) ∧
    (∀ s, BlockLayer.seGate s ∈ b.conv →
      s = SqueezeExcitation.init b.hiddenDim (max 1 (pyInt ((inPlanes : ℚ) / r)))) := by
  unfold MBConvBlock.init at h
  split_ifs at h with h1 h2 h3 h4
  · simp only [Except.ok.injEq] at h
    subst h
    refine ⟨iff_of_true
      ⟨SqueezeExcitation.init (pyInt ((inPlanes : ℚ) * t)) (max 1 (pyInt ((inPlanes : ℚ) / r))),
        List.mem_append_left _ (List.mem_append_right _ (by simp))⟩ h3, ?_⟩
    intro s hs
    by_cases hne : inPlanes ≠ pyInt ((inPlanes : ℚ) * t) <;>
      simp only [if_pos hne, if_neg hne] at hs <;>
      simp at hs <;>
      simpa using hs
  · simp only [Except.ok.injEq] at h
    subst h
    refine ⟨iff_of_false ?_ h3, ?_⟩
    · rintro ⟨s, hs⟩
      by_cases hne : inPlanes ≠ pyInt ((inPlanes : ℚ) * t) <;>
        simp only [if_pos hne, if_neg hne] at hs <;> simp at hs
    · intro s hs
      by_cases hne : inPlanes ≠ pyInt ((inPlanes : ℚ) * t) <;>
        simp only [if_pos hne, if_neg hne] at hs <;> simp at hs

/-- Witness for C7: a reduction ratio of 4 on 8 input channels produces a
squeeze-excitation gate with reduced dimension `max 1 (int (8 / 4)) = 2`. -/
theorem mbconv_se_gate_witness :
    ∃ b, MBConvBlock.init 8 8 1 6 5 4 false = .ok b ∧
      (((∃ s, BlockLayer.seGate s ∈ b.conv) ↔ (4 : ℚ) ≠ 1) ∧
       (∀ s, BlockLayer.seGate s ∈ b.conv →
         s = SqueezeExcitation.init b.hiddenDim (max 1 (pyInt ((8 : ℚ) / 4))))) :=
  ⟨_, rfl, mbconv_se_gate 8 8 1 6 5 4 false _ rfl⟩

/-- Unfolding of the stage loops: the sixteen `MBConvBlock` argument
records that `MnasNetA1.__init__` produces, in order. -/
theorem blockArgsList_eq (w : ℚ) :
    blockArgsList w = [
      ⟨0, 0, pyInt (32 * w), pyInt (((16 : ℤ) : ℚ) * w), 1, 1, 3, 1, true⟩,
      ⟨1, 0, pyInt (((16 : ℤ) : ℚ) * w), pyInt (((24 : ℤ) : ℚ) * w), 2, 6, 3, 1, false⟩,
      ⟨1, 1, pyInt (((24 : ℤ) : ℚ) * w), pyInt (((24 : ℤ) : ℚ) * w), 1, 6, 3, 1, false⟩,
      ⟨2, 0, pyInt (((24 : ℤ) : ℚ) * w), pyInt (((40 : ℤ) : ℚ) * w), 2, 3, 5, 4, false⟩,
      ⟨2, 1, pyInt (((40 : ℤ) : ℚ) * w), pyInt (((40 : ℤ) : ℚ) * w), 1, 3, 5, 4, false⟩,
      ⟨2, 2, pyInt (((40 : ℤ) : ℚ) * w), pyInt (((40 : ℤ) : ℚ) * w), 1, 3, 5, 4, false⟩,
      ⟨3, 0, pyInt (((40 : ℤ) : ℚ) * w), pyInt (((80 : ℤ) : ℚ) * w), 2, 6, 3, 1, false⟩,
      ⟨3, 1, pyInt (((80 : ℤ) : ℚ) * w), pyInt (((80 : ℤ) : ℚ) * w), 1, 6, 3, 1, false⟩,
      ⟨3, 2, pyInt (((80 : ℤ) : ℚ) * w), pyInt (((80 : ℤ) : ℚ) * w), 1, 6, 3, 1, false⟩,
      ⟨3, 3, pyInt (((80 : ℤ) : ℚ) * w), pyInt (((80 : ℤ) : ℚ) * w), 1, 6, 3, 1, false⟩,
      ⟨4, 0, pyInt (((80 : ℤ) : ℚ) * w), pyInt (((112 : ℤ) : ℚ) * w), 1, 6, 3, 4, false⟩,
      ⟨4, 1, pyInt (((112 : ℤ) : ℚ) * w), pyInt (((112 : ℤ) : ℚ) * w), 1, 6, 3, 4, false⟩,
      ⟨5, 0, pyInt (((112 : ℤ) : ℚ) * w), pyInt (((160 : ℤ) : ℚ) * w), 2, 6, 5, 4, false⟩,
      ⟨5, 1, pyInt (((160 : ℤ) : ℚ) * w), pyInt (((160 : ℤ) : ℚ) * w), 1, 6, 5, 4, false⟩,
      ⟨5, 2, pyInt (((160 : ℤ) : ℚ) * w), pyInt (((160 : ℤ) : ℚ) * w), 1, 6, 5, 4, false⟩,
      ⟨6, 0, pyInt (((160 : ℤ) : ℚ) * w), pyInt (((320 : ℤ) : ℚ) * w), 1, 6, 3, 1, false⟩] :=
  rfl

/-- Unfolding of the running `in_channels` after the last stage. -/
theorem lastChannels_eq (w : ℚ) : lastChannels w = pyInt (((320 : ℤ) : ℚ) * w) :=
  rfl

/-- C5: every block of stage 0 is constructed with the no-skip flag set —
and blocks of later stages with it unset — and a stage-0 block never has
an active residual shortcut, whatever the width multiplier. -/
theorem stage_zero_skips_residual (w : ℚ) :
    ∀ a ∈ blockArgsList w,
      (a.noSkip = true ↔ a.stage = 0) ∧
      (a.stage = 0 → ∀ b, MBConvBlock.init a.inPlanes a.outPlanes a.stride
          a.expandRatio a.kernelSize a.reductionRatio a.noSkip = .ok b →
        b.useResidual = false) := by
  intro a ha
  rw [blockArgsList_eq] at ha
  simp only [List.mem_cons, List.not_mem_nil, or_false] at ha
  rcases ha with rfl|rfl|rfl|rfl|rfl|rfl|rfl|rfl|rfl|rfl|rfl|rfl|rfl|rfl|rfl|rfl
  · exact ⟨by simp, fun _ b hb => init_noSkip_no_residual _ _ _ _ _ _ b hb⟩
  all_goals exact ⟨by simp, fun h0 => absurd h0 (by simp)⟩

/-- Witness for C5: the single stage-0 block at width multiplier 1 has the
flag set and its construction yields an inactive residual shortcut. -/
theorem stage_zero_skips_residual_witness :
    (((⟨0, 0, pyInt (32 * 1), pyInt (((16 : ℤ) : ℚ) * 1), 1, 1, 3, 1, true⟩ : BlockArgs).noSkip = true ↔
      (⟨0, 0, pyInt (32 * 1), pyInt (((16 : ℤ) : ℚ) * 1), 1, 1, 3, 1, true⟩ : BlockArgs).stage = 0) ∧
     ((⟨0, 0, pyInt (32 * 1), pyInt (((16 : ℤ) : ℚ) * 1), 1, 1, 3, 1, true⟩ : BlockArgs).stage = 0 →
       ∀ b, MBConvBlock.init (pyInt (32 * 1)) (pyInt (((16 : ℤ) : ℚ) * 1)) 1 1 3 1 true = .ok b →
         b.useResidual = false)) :=
  stage_zero_skips_residual 1 _ (by rw [blockArgsList_eq]; exact List.mem_cons_self _ _)

/-- Construction of the network always succeeds: every stride and kernel
size in `settings` is legal and no reduction ratio is zero, so
`MnasNetA1.init` returns exactly the model described by `mnasNetModel`. -/
theorem mnasnet_init_eq (w : ℚ) (nc : ℤ) :
    MnasNetA1.init w nc = .ok (mnasNetModel w nc) :=
  rfl

/-- C4: in the network built for any width multiplier, the declared output
channel count of every feature equals the declared input channel count of
the next one, from the stem (3 channels in, `int(32 * w)` out) through all
sixteen blocks to the head convolution (which ends at 1280 channels). -/
theorem mnasnet_channel_chaining (w : ℚ) (nc : ℤ) (m : MnasNetA1)
    (h : MnasNetA1.init w nc = .ok m) :
    List.Chain' (fun f g => f.outCh = g.inCh) m.features ∧
    m.features.head?.map Feature.inCh = some 3 ∧
    m.features.head?.map Feature.outCh = some (pyInt (32 * w)) ∧
    m.features.getLast? = some (.cbr (ConvBNReLU.init (lastChannels w) 1280 1 1 1)) := by
  rw [mnasnet_init_eq] at h
  simp only [Except.ok.injEq] at h
  subst h
  refine ⟨?_, rfl, rfl, ?_⟩
  · simp [mnasNetModel, blockArgsList_eq, blockOfArgs, lastChannels_eq,
      Feature.inCh, Feature.outCh, ConvBNReLU.init, List.chain'_cons]
  · show (Feature.cbr _ :: (_ ++ [_])).getLast? = _
    rw [← List.cons_append, List.getLast?_concat]

/-- Witness for C4: the canonical network chains correctly. -/
theorem mnasnet_channel_chaining_witness :
    ∃ m, MnasNetA1.init 1 1000 = .ok m ∧
      (List.Chain' (fun f g => f.outCh = g.inCh) m.features ∧
       m.features.head?.map Feature.inCh = some 3 ∧
       m.features.head?.map Feature.outCh = some (pyInt (32 * 1)) ∧
       m.features.getLast? = some (.cbr (ConvBNReLU.init (lastChannels 1) 1280 1 1 1))) :=
  ⟨_, rfl, mnasnet_channel_chaining 1 1000 _ rfl⟩

/-- Broadcasting a dimension against an equal dimension is the identity. -/
theorem broadcastDim_self (a : ℤ) : broadcastDim a a = some a := by
  simp [broadcastDim]

/-- Broadcasting a dimension against `1` keeps the dimension. -/
theorem broadcastDim_one (a : ℤ) : broadcastDim a 1 = some a := by
  unfold broadcastDim
  split_ifs <;> simp_all

/-- C9: for every valid `(num_features, reduced_dim)` pair with
`reduced_dim ≥ 1` and every (spatially nonempty) input tensor whose
channel count is `num_features`, `SqueezeExcitation.forward` produces an
output with exactly the input's shape. -/
theorem se_shape_preserved (nf rd : ℤ) (x : Shape4)
    (hrd : 1 ≤ rd) (hnf : 1 ≤ nf) (hc : x.c = nf) (hh : 1 ≤ x.h) (hw : 1 ≤ x.w) :
    (SqueezeExcitation.init nf rd).forwardShape x = some x := by
  obtain ⟨n, c, h, w⟩ := x
  simp only at hc hh hw
  subst hc
  simp [SqueezeExcitation.init, SqueezeExcitation.forwardShape, runPrims,
    PrimLayer.shape4, broadcastShapes, broadcastDim_self, broadcastDim_one,
    convOut, hnf, hh, hw, Int.zero_fdiv]

/-- Witness for C9: an 8-channel gate with bottleneck 2 preserves the
shape `(1, 8, 7, 7)`. -/
theorem se_shape_preserved_witness :
    (1 : ℤ) ≤ 2 ∧ (SqueezeExcitation.init 8 2).forwardShape ⟨1, 8, 7, 7⟩ = some ⟨1, 8, 7, 7⟩ :=
  ⟨by decide, se_shape_preserved 8 2 ⟨1, 8, 7, 7⟩ (by decide) (by decide) rfl (by decide) (by decide)⟩

/-- C1: for the canonical width multiplier `1.0` and any class count, a
forward pass on a batch of `(batch, 3, 224, 224)` inputs yields shape
`(batch, num_classes)`. -/
theorem mnasnet_forward_shape (b nc : ℤ) (m : MnasNetA1)
    (h : MnasNetA1.init 1 nc = .ok m) :
    m.forwardShape ⟨b, 3, 224, 224⟩ = some ⟨b, nc⟩ := by
  rw [mnasnet_init_eq] at h
  simp only [Except.ok.injEq] at h
  subst h
  norm_num [mnasNetModel, blockArgsList_eq, lastChannels_eq, blockOfArgs,
    ConvBNReLU.init, SqueezeExcitation.init, MnasNetA1.forwardShape,
    Feature.shape4, MBConvBlock.forwardShape, BlockLayer.shape4, runPrims,
    PrimLayer.shape4, PrimLayer.shape2, SqueezeExcitation.forwardShape,
    broadcastShapes, broadcastDim_self, broadcastDim_one, convOut, pyInt,
    Int.fdiv_eq_ediv, List.foldlM_cons, List.foldlM_nil, Option.bind]

/-- Witness for C1: the canonical configuration maps `(1, 3, 224, 224)`
to `(1, 1000)`. -/
theorem mnasnet_forward_shape_witness :
    ∃ m, MnasNetA1.init 1 1000 = .ok m ∧
      m.forwardShape ⟨1, 3, 224, 224⟩ = some ⟨1, 1000⟩ :=
  ⟨_, rfl, mnasnet_forward_shape 1 1000 _ rfl⟩

/-- Arithmetic helper: `n * (n / n) = n` over the naturals, the element
count of a depthwise convolution weight per square-kernel cell. -/
theorem mul_div_self_nat (n : ℕ) : n * (n / n) = n := by
  cases n with
  | zero => rfl
  | succ m => rw [Nat.div_self (Nat.succ_pos m), mul_one]

/-- Parameter count of one `MBConvBlock` is monotone in its input and
output channel counts, for a natural expansion ratio and positive
reduction ratio (the only configurations `settings` uses). -/
theorem blockOfArgs_numel_mono (p₁ p₂ q₁ q₂ st k : ℤ) (i₁ i₂ j₁ j₂ : ℕ) (t r : ℚ)
    (ns₁ ns₂ : Bool) (hm : ∃ n : ℕ, t = (n : ℚ)) (hr : 0 < r)
    (hp0 : 0 ≤ p₁) (hp : p₁ ≤ p₂) (hq0 : 0 ≤ q₁) (hq : q₁ ≤ q₂) :
    (blockOfArgs ⟨i₁, j₁, p₁, q₁, st, t, k, r, ns₁⟩).numel ≤
      (blockOfArgs ⟨i₂, j₂, p₂, q₂, st, t, k, r, ns₂⟩).numel := by
  obtain ⟨m, rfl⟩ := hm
  have hp' : p₁.toNat ≤ p₂.toNat := Int.toNat_le_toNat hp
  have hq' : q₁.toNat ≤ q₂.toNat := Int.toNat_le_toNat hq
  have hh : (p₁ * (m : ℤ)).toNat ≤ (p₂ * (m : ℤ)).toNat :=
    Int.toNat_le_toNat (mul_le_mul_of_nonneg_right hp (Int.ofNat_nonneg m))
  have hse : (1 ⊔ pyInt ((p₁ : ℚ) / r)).toNat ≤ (1 ⊔ pyInt ((p₂ : ℚ) / r)).toNat := by
    apply Int.toNat_le_toNat
    apply sup_le_sup_left
    apply pyInt_mono
    have hcast : (p₁ : ℚ) ≤ (p₂ : ℚ) := by exact_mod_cast hp
    gcongr
  unfold blockOfArgs MBConvBlock.numel
  by_cases hr1 : r ≠ 1 <;>
    simp only [if_pos hr1, if_neg hr1, pyInt_mul_natCast, apply_ite (List.map BlockLayer.numel),
      apply_ite List.sum, List.map_append, List.sum_append, List.map_cons, List.map_nil,
      List.sum_cons, List.sum_nil, BlockLayer.numel, ConvBNReLU.numel, ConvBNReLU.init,
      SqueezeExcitation.numel, SqueezeExcitation.init, PrimLayer.numel, mul_div_self_nat,
      Int.toNat_one, Nat.div_one, mul_one, one_mul, add_zero, zero_add,
      Bool.false_eq_true, if_false, if_true] <;>
    split_ifs with hc₁ hc₂ <;>
    first
      | (exfalso
         have h2 := not_not.mp hc₂
         have hz : p₂ * ((m : ℤ) - 1) = 0 := by rw [mul_sub, mul_one, ← h2, sub_self]
         rcases mul_eq_zero.mp hz with h0 | hm1
         · have hp₁0 : p₁ = 0 := le_antisymm (h0 ▸ hp) hp0
           exact hc₁ (by rw [hp₁0, zero_mul])
         · have hm : (m : ℤ) = 1 := by linarith
           exact hc₁ (by rw [hm, mul_one]))
      | (gcongr <;> simp)

/-- Parameter count of a group-1 `ConvBNReLU` is monotone in its channel
counts. -/
theorem convbnrelu_numel_mono (i₁ i₂ o₁ o₂ k s : ℤ)
    (hi : i₁.toNat ≤ i₂.toNat) (ho : o₁.toNat ≤ o₂.toNat) :
    (ConvBNReLU.init i₁ o₁ k s 1).numel ≤ (ConvBNReLU.init i₂ o₂ k s 1).numel := by
  simp only [ConvBNReLU.numel, ConvBNReLU.init, List.map_cons, List.map_nil, List.sum_cons,
    List.sum_nil, PrimLayer.numel, Int.toNat_one, Nat.div_one, add_zero,
    Bool.false_eq_true, if_false]
  gcongr <;> simp

/-- Projection: `blockOfArgs` keeps the declared input channel count. -/
theorem blockOfArgs_inPlanes (a : BlockArgs) : (blockOfArgs a).inPlanes = a.inPlanes := by
  unfold blockOfArgs
  split <;> rfl

/-- Projection: `blockOfArgs` keeps the declared output channel count. -/
theorem blockOfArgs_outPlanes (a : BlockArgs) : (blockOfArgs a).outPlanes = a.outPlanes := by
  unfold blockOfArgs
  split <;> rfl

/-- C8: raising the width multiplier never shrinks any declared channel
count of the network, and the total learnable parameter count is monotone
non-decreasing in the width multiplier. -/
theorem mnasnet_width_monotone (w₁ w₂ : ℚ) (nc : ℤ) (m₁ m₂ : MnasNetA1)
    (h0 : 0 ≤ w₁) (h12 : w₁ ≤ w₂)
    (h₁ : MnasNetA1.init w₁ nc = .ok m₁) (h₂ : MnasNetA1.init w₂ nc = .ok m₂) :
    List.Forall₂ (fun f g => f.inCh ≤ g.inCh ∧ f.outCh ≤ g.outCh) m₁.features m₂.features ∧
    m₁.numel ≤ m₂.numel := by
  rw [mnasnet_init_eq] at h₁ h₂
  simp only [Except.ok.injEq] at h₁ h₂
  subst h₁
  subst h₂
  have key : ∀ c : ℚ, 0 ≤ c → pyInt (c * w₁) ≤ pyInt (c * w₂) := fun c hc =>
    pyInt_mono (mul_le_mul_of_nonneg_left h12 hc)
  have key₀ : ∀ c : ℚ, 0 ≤ c → 0 ≤ pyInt (c * w₁) := fun c hc =>
    pyInt_nonneg (mul_nonneg hc h0)
  constructor
  · norm_num [mnasNetModel, blockArgsList_eq, lastChannels_eq, List.forall₂_cons,
      Feature.inCh, Feature.outCh, blockOfArgs_inPlanes, blockOfArgs_outPlanes,
      ConvBNReLU.init]
    repeat' apply And.intro
    all_goals first
      | exact le_refl _
      | exact key _ (by norm_num)
  ·
    have hb1 : (blockOfArgs ⟨0, 0, pyInt (32 * w₁), pyInt (((16 : ℤ) : ℚ) * w₁), 1, 1, 3, 1, true⟩).numel ≤
        (blockOfArgs ⟨0, 0, pyInt (32 * w₂), pyInt (((16 : ℤ) : ℚ) * w₂), 1, 1, 3, 1, true⟩).numel :=
      blockOfArgs_numel_mono (pyInt (32 * w₁)) (pyInt (32 * w₂)) (pyInt (((16 : ℤ) : ℚ) * w₁)) (pyInt (((16 : ℤ) : ℚ) * w₂)) 1 3 0 0 0 0 1 1 true true
        ⟨1, by norm_num⟩ (by norm_num) (key₀ (32 : ℚ) (by norm_num)) (key (32 : ℚ) (by norm_num))
        (key₀ ((16 : ℤ) : ℚ) (by norm_num)) (key ((16 : ℤ) : ℚ) (by norm_num))
    have hb2 : (blockOfArgs ⟨1, 0, pyInt (((16 : ℤ) : ℚ) * w₁), pyInt (((24 : ℤ) : ℚ) * w₁), 2, 6, 3, 1, false⟩).numel ≤
        (blockOfArgs ⟨1, 0, pyInt (((16 : ℤ) : ℚ) * w₂), pyInt (((24 : ℤ) : ℚ) * w₂), 2, 6, 3, 1, false⟩).numel :=
      blockOfArgs_numel_mono (pyInt (((16 : ℤ) : ℚ) * w₁)) (pyInt (((16 : ℤ) : ℚ) * w₂)) (pyInt (((24 : ℤ) : ℚ) * w₁)) (pyInt (((24 : ℤ) : ℚ) * w₂)) 2 3 1 1 0 0 6 1 false false
        ⟨6, by norm_num⟩ (by norm_num) (key₀ ((16 : ℤ) : ℚ) (by norm_num)) (key ((16 : ℤ) : ℚ) (by norm_num))
        (key₀ ((24 : ℤ) : ℚ) (by norm_num)) (key ((24 : ℤ) : ℚ) (by norm_num))
    have hb3 : (blockOfArgs ⟨1, 1, pyInt (((24 : ℤ) : ℚ) * w₁), pyInt (((24 : ℤ) : ℚ) * w₁), 1, 6, 3, 1, false⟩).numel ≤
        (blockOfArgs ⟨1, 1, pyInt (((24 : ℤ) : ℚ) * w₂), pyInt (((24 : ℤ) : ℚ) * w₂), 1, 6, 3, 1, false⟩).numel :=
      blockOfArgs_numel_mono (pyInt (((24 : ℤ) : ℚ) * w₁)) (pyInt (((24 : ℤ) : ℚ) * w₂)) (pyInt (((24 : ℤ) : ℚ) * w₁)) (pyInt (((24 : ℤ) : ℚ) * w₂)) 1 3 1 1 1 1 6 1 false false
        ⟨6, by norm_num⟩ (by norm_num) (key₀ ((24 : ℤ) : ℚ) (by norm_num)) (key ((24 : ℤ) : ℚ) (by norm_num))
        (key₀ ((24 : ℤ) : ℚ) (by norm_num)) (key ((24 : ℤ) : ℚ) (by norm_num))
    have hb4 : (blockOfArgs ⟨2, 0, pyInt (((24 : ℤ) : ℚ) * w₁), pyInt (((40 : ℤ) : ℚ) * w₁), 2, 3, 5, 4, false⟩).numel ≤
        (blockOfArgs ⟨2, 0, pyInt (((24 : ℤ) : ℚ) * w₂), pyInt (((40 : ℤ) : ℚ) * w₂), 2, 3, 5, 4, false⟩).numel :=
      blockOfArgs_numel_mono (pyInt (((24 : ℤ) : ℚ) * w₁)) (pyInt (((24 : ℤ) : ℚ) * w₂)) (pyInt (((40 : ℤ) : ℚ) * w₁)) (pyInt (((40 : ℤ) : ℚ) * w₂)) 2 5 2 2 0 0 3 4 false false
        ⟨3, by norm_num⟩ (by norm_num) (key₀ ((24 : ℤ) : ℚ) (by norm_num)) (key ((24 : ℤ) : ℚ) (by norm_num))
        (key₀ ((40 : ℤ) : ℚ) (by norm_num)) (key ((40 : ℤ) : ℚ) (by norm_num))
    have hb5 : (blockOfArgs ⟨2, 1, pyInt (((40 : ℤ) : ℚ) * w₁), pyInt (((40 : ℤ) : ℚ) * w₁), 1, 3, 5, 4, false⟩).numel ≤
        (blockOfArgs ⟨2, 1, pyInt (((40 : ℤ) : ℚ) * w₂), pyInt (((40 : ℤ) : ℚ) * w₂), 1, 3, 5, 4, false⟩).numel :=
      blockOfArgs_numel_mono (pyInt (((40 : ℤ) : ℚ) * w₁)) (pyInt (((40 : ℤ) : ℚ) * w₂)) (pyInt (((40 : ℤ) : ℚ) * w₁)) (pyInt (((40 : ℤ) : ℚ) * w₂)) 1 5 2 2 1 1 3 4 false false
        ⟨3, by norm_num⟩ (by norm_num) (key₀ ((40 : ℤ) : ℚ) (by norm_num)) (key ((40 : ℤ) : ℚ) (by norm_num))
        (key₀ ((40 : ℤ) : ℚ) (by norm_num)) (key ((40 : ℤ) : ℚ) (by norm_num))
    have hb6 : (blockOfArgs ⟨2, 2, pyInt (((40 : ℤ) : ℚ) * w₁), pyInt (((40 : ℤ) : ℚ) * w₁), 1, 3, 5, 4, false⟩).numel ≤
        (blockOfArgs ⟨2, 2, pyInt (((40 : ℤ) : ℚ) * w₂), pyInt (((40 : ℤ) : ℚ) * w₂), 1, 3, 5, 4, false⟩).numel :=
      blockOfArgs_numel_mono (pyInt (((40 : ℤ) : ℚ) * w₁)) (pyInt (((40 : ℤ) : ℚ) * w₂)) (pyInt (((40 : ℤ) : ℚ) * w₁)) (pyInt (((40 : ℤ) : ℚ) * w₂)) 1 5 2 2 2 2 3 4 false false
        ⟨3, by norm_num⟩ (by norm_num) (key₀ ((40 : ℤ) : ℚ) (by norm_num)) (key ((40 : ℤ) : ℚ) (by norm_num))
        (key₀ ((40 : ℤ) : ℚ) (by norm_num)) (key ((40 : ℤ) : ℚ) (by norm_num))
    have hb7 : (blockOfArgs ⟨3, 0, pyInt (((40 : ℤ) : ℚ) * w₁), pyInt (((80 : ℤ) : ℚ) * w₁), 2, 6, 3, 1, false⟩).numel ≤
        (blockOfArgs ⟨3, 0, pyInt (((40 : ℤ) : ℚ) * w₂), pyInt (((80 : ℤ) : ℚ) * w₂), 2, 6, 3, 1, false⟩).numel :=
      blockOfArgs_numel_mono (pyInt (((40 : ℤ) : ℚ) * w₁)) (pyInt (((40 : ℤ) : ℚ) * w₂)) (pyInt (((80 : ℤ) : ℚ) * w₁)) (pyInt (((80 : ℤ) : ℚ) * w₂)) 2 3 3 3 0 0 6 1 false false
        ⟨6, by norm_num⟩ (by norm_num) (key₀ ((40 : ℤ) : ℚ) (by norm_num)) (key ((40 : ℤ) : ℚ) (by norm_num))
        (key₀ ((80 : ℤ) : ℚ) (by norm_num)) (key ((80 : ℤ) : ℚ) (by norm_num))
    have hb8 : (blockOfArgs ⟨3, 1, pyInt (((80 : ℤ) : ℚ) * w₁), pyInt (((80 : ℤ) : ℚ) * w₁), 1, 6, 3, 1, false⟩).numel ≤
        (blockOfArgs ⟨3, 1, pyInt (((80 : ℤ) : ℚ) * w₂), pyInt (((80 : ℤ) : ℚ) * w₂), 1, 6, 3, 1, false⟩).numel :=
      blockOfArgs_numel_mono (pyInt (((80 : ℤ) : ℚ) * w₁)) (pyInt (((80 : ℤ) : ℚ) * w₂)) (pyInt (((80 : ℤ) : ℚ) * w₁)) (pyInt (((80 : ℤ) : ℚ) * w₂)) 1 3 3 3 1 1 6 1 false false
        ⟨6, by norm_num⟩ (by norm_num) (key₀ ((80 : ℤ) : ℚ) (by norm_num)) (key ((80 : ℤ) : ℚ) (by norm_num))
        (key₀ ((80 : ℤ) : ℚ) (by norm_num)) (key ((80 : ℤ) : ℚ) (by norm_num))
    have hb9 : (blockOfArgs ⟨3, 2, pyInt (((80 : ℤ) : ℚ) * w₁), pyInt (((80 : ℤ) : ℚ) * w₁), 1, 6, 3, 1, false⟩).numel ≤
        (blockOfArgs ⟨3, 2, pyInt (((80 : ℤ) : ℚ) * w₂), pyInt (((80 : ℤ) : ℚ) * w₂), 1, 6, 3, 1, false⟩).numel :=
      blockOfArgs_numel_mono (pyInt (((80 : ℤ) : ℚ) * w₁)) (pyInt (((80 : ℤ) : ℚ) * w₂)) (pyInt (((80 : ℤ) : ℚ) * w₁)) (pyInt (((80 : ℤ) : ℚ) * w₂)) 1 3 3 3 2 2 6 1 false false
        ⟨6, by norm_num⟩ (by norm_num) (key₀ ((80 : ℤ) : ℚ) (by norm_num)) (key ((80 : ℤ) : ℚ) (by norm_num))
        (key₀ ((80 : ℤ) : ℚ) (by norm_num)) (key ((80 : ℤ) : ℚ) (by norm_num))
    have hb10 : (blockOfArgs ⟨3, 3, pyInt (((80 : ℤ) : ℚ) * w₁), pyInt (((80 : ℤ) : ℚ) * w₁), 1, 6, 3, 1, false⟩).numel ≤
        (blockOfArgs ⟨3, 3, pyInt (((80 : ℤ) : ℚ) * w₂), pyInt (((80 : ℤ) : ℚ) * w₂), 1, 6, 3, 1, false⟩).numel :=
      blockOfArgs_numel_mono (pyInt (((80 : ℤ) : ℚ) * w₁)) (pyInt (((80 : ℤ) : ℚ) * w₂)) (pyInt (((80 : ℤ) : ℚ) * w₁)) (pyInt (((80 : ℤ) : ℚ) * w₂)) 1 3 3 3 3 3 6 1 false false
        ⟨6, by norm_num⟩ (by norm_num) (key₀ ((80 : ℤ) : ℚ) (by norm_num)) (key ((80 : ℤ) : ℚ) (by norm_num))
        (key₀ ((80 : ℤ) : ℚ) (by norm_num)) (key ((80 : ℤ) : ℚ) (by norm_num))
    have hb11 : (blockOfArgs ⟨4, 0, pyInt (((80 : ℤ) : ℚ) * w₁), pyInt (((112 : ℤ) : ℚ) * w₁), 1, 6, 3, 4, false⟩).numel ≤
        (blockOfArgs ⟨4, 0, pyInt (((80 : ℤ) : ℚ) * w₂), pyInt (((112 : ℤ) : ℚ) * w₂), 1, 6, 3, 4, false⟩).numel :=
      blockOfArgs_numel_mono (pyInt (((80 : ℤ) : ℚ) * w₁)) (pyInt (((80 : ℤ) : ℚ) * w₂)) (pyInt (((112 : ℤ) : ℚ) * w₁)) (pyInt (((112 : ℤ) : ℚ) * w₂)) 1 3 4 4 0 0 6 4 false false
        ⟨6, by norm_num⟩ (by norm_num) (key₀ ((80 : ℤ) : ℚ) (by norm_num)) (key ((80 : ℤ) : ℚ) (by norm_num))
        (key₀ ((112 : ℤ) : ℚ) (by norm_num)) (key ((112 : ℤ) : ℚ) (by norm_num))
    have hb12 : (blockOfArgs ⟨4, 1, pyInt (((112 : ℤ) : ℚ) * w₁), pyInt (((112 : ℤ) : ℚ) * w₁), 1, 6, 3, 4, false⟩).numel ≤
        (blockOfArgs ⟨4, 1, pyInt (((112 : ℤ) : ℚ) * w₂), pyInt (((112 : ℤ) : ℚ) * w₂), 1, 6, 3, 4, false⟩).numel :=
      blockOfArgs_numel_mono (pyInt (((112 : ℤ) : ℚ) * w₁)) (pyInt (((112 : ℤ) : ℚ) * w₂)) (pyInt (((112 : ℤ) : ℚ) * w₁)) (pyInt (((112 : ℤ) : ℚ) * w₂)) 1 3 4 4 1 1 6 4 false false
        ⟨6, by norm_num⟩ (by norm_num) (key₀ ((112 : ℤ) : ℚ) (by norm_num)) (key ((112 : ℤ) : ℚ) (by norm_num))
        (key₀ ((112 : ℤ) : ℚ) (by norm_num)) (key ((112 : ℤ) : ℚ) (by norm_num))
    have hb13 : (blockOfArgs ⟨5, 0, pyInt (((112 : ℤ) : ℚ) * w₁), pyInt (((160 : ℤ) : ℚ) * w₁), 2, 6, 5, 4, false⟩).numel ≤
        (blockOfArgs ⟨5, 0, pyInt (((112 : ℤ) : ℚ) * w₂), pyInt (((160 : ℤ) : ℚ) * w₂), 2, 6, 5, 4, false⟩).numel :=
      blockOfArgs_numel_mono (pyInt (((112 : ℤ) : ℚ) * w₁)) (pyInt (((112 : ℤ) : ℚ) * w₂)) (pyInt (((160 : ℤ) : ℚ) * w₁)) (pyInt (((160 : ℤ) : ℚ) * w₂)) 2 5 5 5 0 0 6 4 false false
        ⟨6, by norm_num⟩ (by norm_num) (key₀ ((112 : ℤ) : ℚ) (by norm_num)) (key ((112 : ℤ) : ℚ) (by norm_num))
        (key₀ ((160 : ℤ) : ℚ) (by norm_num)) (key ((160 : ℤ) : ℚ) (by norm_num))
    have hb14 : (blockOfArgs ⟨5, 1, pyInt (((160 : ℤ) : ℚ) * w₁), pyInt (((160 : ℤ) : ℚ) * w₁), 1, 6, 5, 4, false⟩).numel ≤
        (blockOfArgs ⟨5, 1, pyInt (((160 : ℤ) : ℚ) * w₂), pyInt (((160 : ℤ) : ℚ) * w₂), 1, 6, 5, 4, false⟩).numel :=
      blockOfArgs_numel_mono (pyInt (((160 : ℤ) : ℚ) * w₁)) (pyInt (((160 : ℤ) : ℚ) * w₂)) (pyInt (((160 : ℤ) : ℚ) * w₁)) (pyInt (((160 : ℤ) : ℚ) * w₂)) 1 5 5 5 1 1 6 4 false false
        ⟨6, by norm_num⟩ (by norm_num) (key₀ ((160 : ℤ) : ℚ) (by norm_num)) (key ((160 : ℤ) : ℚ) (by norm_num))
        (key₀ ((160 : ℤ) : ℚ) (by norm_num)) (key ((160 : ℤ) : ℚ) (by norm_num))
    have hb15 : (blockOfArgs ⟨5, 2, pyInt (((160 : ℤ) : ℚ) * w₁), pyInt (((160 : ℤ) : ℚ) * w₁), 1, 6, 5, 4, false⟩).numel ≤
        (blockOfArgs ⟨5, 2, pyInt (((160 : ℤ) : ℚ) * w₂), pyInt (((160 : ℤ) : ℚ) * w₂), 1, 6, 5, 4, false⟩).numel :=
      blockOfArgs_numel_mono (pyInt (((160 : ℤ) : ℚ) * w₁)) (pyInt (((160 : ℤ) : ℚ) * w₂)) (pyInt (((160 : ℤ) : ℚ) * w₁)) (pyInt (((160 : ℤ) : ℚ) * w₂)) 1 5 5 5 2 2 6 4 false false
        ⟨6, by norm_num⟩ (by norm_num) (key₀ ((160 : ℤ) : ℚ) (by norm_num)) (key ((160 : ℤ) : ℚ) (by norm_num))
        (key₀ ((160 : ℤ) : ℚ) (by norm_num)) (key ((160 : ℤ) : ℚ) (by norm_num))
    have hb16 : (blockOfArgs ⟨6, 0, pyInt (((160 : ℤ) : ℚ) * w₁), pyInt (((320 : ℤ) : ℚ) * w₁), 1, 6, 3, 1, false⟩).numel ≤
        (blockOfArgs ⟨6, 0, pyInt (((160 : ℤ) : ℚ) * w₂), pyInt (((320 : ℤ) : ℚ) * w₂), 1, 6, 3, 1, false⟩).numel :=
      blockOfArgs_numel_mono (pyInt (((160 : ℤ) : ℚ) * w₁)) (pyInt (((160 : ℤ) : ℚ) * w₂)) (pyInt (((320 : ℤ) : ℚ) * w₁)) (pyInt (((320 : ℤ) : ℚ) * w₂)) 1 3 6 6 0 0 6 1 false false
        ⟨6, by norm_num⟩ (by norm_num) (key₀ ((160 : ℤ) : ℚ) (by norm_num)) (key ((160 : ℤ) : ℚ) (by norm_num))
        (key₀ ((320 : ℤ) : ℚ) (by norm_num)) (key ((320 : ℤ) : ℚ) (by norm_num))
    have hstem : (ConvBNReLU.init 3 (pyInt (32 * w₁)) 3 2 1).numel ≤
          (ConvBNReLU.init 3 (pyInt (32 * w₂)) 3 2 1).numel :=
      convbnrelu_numel_mono 3 3 (pyInt (32 * w₁)) (pyInt (32 * w₂)) 3 2 le_rfl
        (Int.toNat_le_toNat (key 32 (by norm_num)))
    have hhead : (ConvBNReLU.init (pyInt (((320 : ℤ) : ℚ) * w₁)) 1280 1 1 1).numel ≤
          (ConvBNReLU.init (pyInt (((320 : ℤ) : ℚ) * w₂)) 1280 1 1 1).numel :=
      convbnrelu_numel_mono (pyInt (((320 : ℤ) : ℚ) * w₁)) (pyInt (((320 : ℤ) : ℚ) * w₂))
        1280 1280 1 1 (Int.toNat_le_toNat (key (((320 : ℤ) : ℚ)) (by norm_num))) le_rfl
    simp only [MnasNetA1.numel, mnasNetModel, blockArgsList_eq, lastChannels_eq,
      Feature.numel, List.map_cons, List.map_append, List.map_nil, List.map_map,
      List.sum_cons, List.sum_append, List.sum_nil, Function.comp]
    gcongr

/-- Witness for C8: widening from multiplier `1/2` to `1` never shrinks a
channel count and never shrinks the parameter count. -/
theorem mnasnet_width_monotone_witness :
    ∃ m₁ m₂, MnasNetA1.init (1 / 2) 5 = .ok m₁ ∧ MnasNetA1.init 1 5 = .ok m₂ ∧
      (List.Forall₂ (fun f g => f.inCh ≤ g.inCh ∧ f.outCh ≤ g.outCh) m₁.features m₂.features ∧
       m₁.numel ≤ m₂.numel) :=
  ⟨_, _, rfl, rfl, mnasnet_width_monotone (1 / 2) 1 5 _ _ (by norm_num) (by norm_num) rfl rfl⟩
